import Mathlib

/-!
Verification of the streaming response pipeline of the documentation chat
widget: the newline-delimited JSON byte decoder, the stream-event validator,
the response transport, the stream consumer, and the persistent store.

Each definition is a shallow embedding of the corresponding TypeScript
source. JavaScript `undefined` is modelled as `Option.none`; JavaScript
objects are association lists of fields.
-/

/-- JSON values as delivered by the incremental JSON parser. Mirrors the
JavaScript value universe the sources manipulate: null, booleans, numbers,
strings, arrays and objects. -/
inductive Json where
  | null
  | bool (b : Bool)
  | num (n : Int)
  | str (s : String)
  | arr (elems : List Json)
  | obj (fields : List (String × Json))

/-- A decoded JSON object, the TypeScript type Record of string to unknown. -/
abbrev JsObject := List (String × Json)

/-- JavaScript property access `value[key]` on an object; `none` models
`undefined` (field absent). -/
def jsGet (o : JsObject) (key : String) : Option Json :=
  (o.find? (fun p => p.1 == key)).map (fun p => p.2)

/-- JavaScript strict equality of a possibly-absent value with a string
literal, as in `value === "reasoning"`. -/
def isStr (v : Option Json) (s : String) : Bool :=
  match v with
  | some (Json.str t) => t == s
  | _ => false

/-- JavaScript test `typeof v === "string"` on a possibly-absent field. -/
def isStringVal (v : Option Json) : Bool :=
  match v with
  | some (Json.str _) => true
  | _ => false

/-- EventDecoderStream.isRecord (event-decoder-stream.ts): the JavaScript
test `typeof value === "object" && value !== null`. Note that this is true
for arrays as well as plain objects, and false for null, undefined and all
primitives. -/
def isRecord (v : Option Json) : Bool :=
  match v with
  | some (Json.obj _) => true
  | some (Json.arr _) => true
  | some _ => false
  | none => false

/-- Event status enumeration from shared/models.ts. -/
inductive EventStatus where
  | in_progress
  | completed

/-- StreamEvent from shared/models.ts: the closed discriminated union of
reasoning, function_call and output events. The `arguments` payload of a
function_call keeps the raw decoded value the validator attached. -/
inductive StreamEvent where
  | reasoning (status : EventStatus)
  | function_call (status : EventStatus) (name : String) (arguments : Option Json)
  | output (status : EventStatus) (delta : String)

/-- EventDecoderStream.isEventType: membership of the decoded `type` field in
the recognized enumeration. -/
def isEventType (v : Option Json) : Bool :=
  isStr v "reasoning" || isStr v "function_call" || isStr v "output"

/-- EventDecoderStream.isEventStatus: membership of the decoded `status`
field in the recognized enumeration. -/
def isEventStatus (v : Option Json) : Bool :=
  isStr v "in_progress" || isStr v "completed"

/-- The `status` narrowing of EventDecoderStream.toStreamEvent: the two
string comparisons of isEventStatus, yielding the typed status. -/
def decodeStatus (v : Option Json) : Option EventStatus :=
  if isStr v "in_progress" then some EventStatus.in_progress
  else if isStr v "completed" then some EventStatus.completed
  else none

/-- EventDecoderStream.toStreamEvent (event-decoder-stream.ts lines 37-68):
reject unless `type` and `status` are recognized; then switch on `type`.
For function_call, reject a non-string `name`, and attach `arguments` only
when isRecord accepts it (`isRecord(args) ? args : undefined`). For output,
reject a non-string `delta`. -/
def toStreamEvent (value : JsObject) : Option StreamEvent :=
  match decodeStatus (jsGet value "status") with
  | none => none
  | some status =>
    if isStr (jsGet value "type") "reasoning" then
      some (StreamEvent.reasoning status)
    else if isStr (jsGet value "type") "function_call" then
      match jsGet value "name" with
      | some (Json.str name) =>
          some (StreamEvent.function_call status name
            (if isRecord (jsGet value "arguments") then jsGet value "arguments" else none))
      | _ => none
    else if isStr (jsGet value "type") "output" then
      match jsGet value "delta" with
      | some (Json.str delta) => some (StreamEvent.output status delta)
      | _ => none
    else none

/-- EventDecoderStream as a whole: each incoming decoded object is mapped
through toStreamEvent and the event, if any, is enqueued; the transform is
stateless across chunks. -/
def eventDecoderProcess (chunks : List JsObject) : List StreamEvent :=
  chunks.filterMap toStreamEvent

/-- Spec-side definition (from the wording of the spec, for comparison with
`isRecord` of the source): a "plain record" is a JSON object mapping — not
null, not an array, not a primitive. -/
def isPlainRecord : Json → Bool
  | Json.obj _ => true
  | _ => false

/-- Spec-side definition (from the wording of the spec, for comparison with
`toStreamEvent` of the source): the Event Validator accepts an object
exactly when its `type` is one of reasoning, function_call, output, its
`status` is one of in_progress, completed, a function_call carries a string
`name`, and an output carries a string `delta`. -/
def specAcceptsEvent (o : JsObject) : Bool :=
  isEventStatus (jsGet o "status") &&
  (isStr (jsGet o "type") "reasoning"
    || (isStr (jsGet o "type") "function_call" && isStringVal (jsGet o "name"))
    || (isStr (jsGet o "type") "output" && isStringVal (jsGet o "delta")))

/-! ## Byte-to-Value Decoder (delimited-json-decoder-stream.ts) -/

/-- One parsed element reported by the incremental JSON parser: its value and
its parent in the parse tree (`none` models `undefined`, i.e. a root-level
value; sub-elements carry the enclosing value as parent). -/
structure ParsedElementInfo where
  parent : Option Json
  value : Json

/-- JavaScript truthiness of a value, as tested by `!value`. -/
def jsTruthy : Json → Bool
  | Json.null => false
  | Json.bool b => b
  | Json.num n => decide (n ≠ 0)
  | Json.str s => decide (s ≠ "")
  | Json.arr _ => true
  | Json.obj _ => true

/-- JavaScript test `typeof value === "object"` (true for null, arrays and
objects). -/
def jsTypeofIsObject : Json → Bool
  | Json.null => true
  | Json.arr _ => true
  | Json.obj _ => true
  | _ => false

/-- JavaScript `Array.isArray(value)`. -/
def jsIsArray : Json → Bool
  | Json.arr _ => true
  | _ => false

/-- The transform of completedJSONFilter (delimited-json-decoder-stream.ts
lines 20-37) applied to one parsed element: skip when the element has a
parent (`info.parent !== undefined`); skip when
`!value || typeof value !== "object" || Array.isArray(value)`; otherwise
enqueue the value as a record. -/
def rootObjectOf (info : ParsedElementInfo) : Option JsObject :=
  if info.parent.isSome then none
  else if !jsTruthy info.value || !jsTypeofIsObject info.value
          || jsIsArray info.value then none
  else
    match info.value with
    | Json.obj fields => some fields
    | _ => none

/-- completedJSONFilter over a sequence of parsed elements: the forwarded
root objects, in arrival order. -/
def completedJSONFilter (infos : List ParsedElementInfo) : List JsObject :=
  infos.filterMap rootObjectOf

/-- Modelled from the spec: the separator handling of the external
incremental JSON parser that DelimitedJSONDecoderStream wraps (the
@streamparser/json library, not part of this repository). The parser
consumes text character by character; a separator character (the service
always passes a newline) closes the current delimited segment, and every
other character extends it. `pending` is the partial segment, `segs` the
complete segments so far. -/
structure SegState where
  pending : List Char
  segs : List (List Char)

/-- The empty decoder state: nothing buffered, nothing emitted. -/
def initialSegState : SegState := ⟨[], []⟩

/-- Modelled from the spec: feeding one character to the incremental
parser. -/
def feedChar (st : SegState) (c : Char) : SegState :=
  if c = '\n' then { pending := [], segs := st.segs ++ [st.pending] }
  else { st with pending := st.pending ++ [c] }

/-- Feeding one network chunk is feeding its characters in order. -/
def feedChunk (st : SegState) (chunk : List Char) : SegState :=
  chunk.foldl feedChar st

/-- Feeding a sequence of network chunks in order. -/
def feedChunks (st : SegState) (chunks : List (List Char)) : SegState :=
  chunks.foldl feedChunk st

/-- Modelled from the spec: the complete delimited segments of a chunked
input, including a trailing segment not closed by a separator (the parser
finishes a complete final value when the upstream closes). -/
def completedSegments (chunks : List (List Char)) : List (List Char) :=
  let st := feedChunks initialSegState chunks
  if st.pending.isEmpty then st.segs else st.segs ++ [st.pending]

/-- DelimitedJSONDecoderStream (delimited-json-decoder-stream.ts lines
13-41): the parser splits the byte stream into delimited segments and
reports parsed elements for each segment — `elementsOf` abstracts what the
external parser reports for one complete segment, which depends only on the
text of that segment — and completedJSONFilter keeps the root objects. -/
def delimitedJSONDecode (elementsOf : List Char → List ParsedElementInfo)
    (chunks : List (List Char)) : List JsObject :=
  ((completedSegments chunks).map (fun seg => completedJSONFilter (elementsOf seg))).flatten

/-! ## Response Transport (response.service.ts) -/

/-- The parts of a fetch Response the transport inspects: the HTTP status,
whether a body stream is present, the body bytes (as character chunks), and
the two response headers it reads (`none` models an absent header). -/
structure HttpResponse where
  status : Nat
  hasBody : Bool
  bodyChunks : List (List Char)
  sessionIdHeader : Option String
  rateLimitResetHeader : Option String

/-- Response.ok: the status is in the inclusive range 200-299. -/
def HttpResponse.ok (r : HttpResponse) : Bool :=
  decide (200 ≤ r.status) && decide (r.status ≤ 299)

/-- The outcome of the fetch call: it resolves with a response, or rejects
(network fault or abort); `aborted` records whether the cancellation signal
had fired, which the catch block inspects to distinguish a timeout. -/
inductive FetchOutcome where
  | success (response : HttpResponse)
  | failure (aborted : Bool)

/-- ChatError as the transport constructs it: a human-readable message and
the optional HTTP status. -/
structure ChatErrorModel where
  message : String
  status : Option Nat

/-- ChatResultStream: the session identifier from the response header and
the validated event stream. -/
structure ChatResultStreamModel where
  sessionId : String
  events : List StreamEvent

/-- JavaScript `v || ""` on a nullable string: null and the empty string are
falsy, so both give the empty string. -/
def jsOrEmpty : Option String → String
  | some v => if v == "" then "" else v
  | none => ""

/-- The rate-limit message of response.service.ts lines 84-85: the retry
hint uses the RateLimit-Reset header value when it is truthy. -/
def rateLimitMessage (retryAfter : Option String) : String :=
  "Sorry, you\x27ve sent too many requests too quickly. Please wait "
    ++ (match retryAfter with
        | some v => if v == "" then "a moment" else v ++ "s"
        | none => "a moment")
    ++ " to try again."

/-- The connectivity failure message of response.service.ts line 92. -/
def unreachableMessage : String := "Sorry, the server could not be reached."

/-- The timeout message of response.service.ts line 113. -/
def timeoutMessage : String := "Sorry, the request timed out. Please try again."

/-- The generic failure message of response.service.ts line 118. -/
def requestFailedMessage : String := "Sorry, the request failed. Please try again."

/-- ResponseService.generateResponse (response.service.ts lines 53-121)
given the outcome of its fetch call: status 429 throws the rate-limit
ChatError; any other non-ok status or a missing body throws the
connectivity ChatError; otherwise the Session-ID response header (defaulted
to the empty string) is returned with the body piped through
DelimitedJSONDecoderStream and EventDecoderStream. A rejected fetch throws
the timeout ChatError when the abort signal fired, else the generic
failure. -/
def generateResponse (elementsOf : List Char → List ParsedElementInfo)
    (outcome : FetchOutcome) : Except ChatErrorModel ChatResultStreamModel :=
  match outcome with
  | FetchOutcome.failure aborted =>
      if aborted then Except.error ⟨timeoutMessage, none⟩
      else Except.error ⟨requestFailedMessage, none⟩
  | FetchOutcome.success r =>
      if r.status == 429 then
        Except.error ⟨rateLimitMessage r.rateLimitResetHeader, some r.status⟩
      else if !r.ok || !r.hasBody then
        Except.error ⟨unreachableMessage, some r.status⟩
      else
        Except.ok ⟨jsOrEmpty r.sessionIdHeader,
          eventDecoderProcess (delimitedJSONDecode elementsOf r.bodyChunks)⟩

/-- ResponseService.clearHistory (response.service.ts lines 131-155): the
fetch is awaited inside a try block that returns true, and any rejection
(network fault or timeout-driven abort) is caught and returns false; the
function is total — it never throws. -/
def clearHistory (outcome : FetchOutcome) : Bool :=
  match outcome with
  | FetchOutcome.success _ => true
  | FetchOutcome.failure _ => false

/-! ## Stream Consumer / Incremental Renderer (assistant.component.ts)

`render` abstracts `marked.parse`, the external Markdown-to-HTML
conversion, which the spec places out of scope. -/

/-- MessageAuthor from shared/models.ts. -/
inductive MessageAuthor where
  | user
  | assistant

/-- ChatMessage as AssistantComponent.addMessage constructs it: the author,
the rendered HTML content, and whether the message is final output text
(false marks a status update). -/
structure ChatMessage where
  turn : MessageAuthor
  content : String
  final : Bool

/-- The component state the consumer touches: the live message list, the
messages persisted to storage (in append order), the awaiting flag, the
transient progress label, and the live streaming output signal value. -/
structure ConsumerState where
  messages : List ChatMessage
  persisted : List ChatMessage
  isAwaiting : Bool
  streamProgress : String
  outputValue : String

/-- AssistantComponent.addMessage (lines 142-154): render the Markdown
content, append the message to the live list, and persist it when `save`
is set. -/
def addMessage (render : String → String) (content : String)
    (turn : MessageAuthor) (save : Bool) (final : Bool)
    (s : ConsumerState) : ConsumerState :=
  let message : ChatMessage := ⟨turn, render content, final⟩
  { s with
    messages := s.messages ++ [message],
    persisted := if save then s.persisted ++ [message] else s.persisted }

/-- PROGRESS_LABELS entry for retrieve_web_links. -/
def progressLabelRetrieve : String := "Searching for relevant pages..."

/-- PROGRESS_LABELS entry for fetch_page_content. -/
def progressLabelFetch : String := "Retrieving page content..."

/-- JavaScript optional access `args?.[key]` on the arguments payload:
undefined when the payload is absent or not an object with that field. -/
def jsIndex (args : Option Json) (key : String) : Option Json :=
  match args with
  | some (Json.obj fields) => jsGet fields key
  | _ => none

/-- AssistantComponent.formatURLsList (lines 249-260): read `urls` from the
arguments, give the empty string unless it is an array, and otherwise keep
the string elements, prefix each with a dash and join with newlines. -/
def formatURLsList (args : Option Json) : String :=
  match jsIndex args "urls" with
  | some (Json.arr urls) =>
      String.intercalate "\n"
        (urls.filterMap (fun u => match u with
          | Json.str s => some ("- " ++ s)
          | _ => none))
  | _ => ""

/-- AssistantComponent.getProgressLabel (lines 262-283). The output case is
unreachable: pipeStream routes output events to onOutputEvent instead. -/
def getProgressLabel : StreamEvent → String
  | StreamEvent.reasoning _ => "Thinking..."
  | StreamEvent.function_call _ name args =>
      if name == "retrieve_web_links" then progressLabelRetrieve
      else if name == "fetch_page_content" then
        progressLabelFetch ++ "\n" ++ formatURLsList args
      else "Processing..."
  | StreamEvent.output _ _ => ""

/-- The persistence condition of AssistantComponent.onProgressEvent:
`event.status === "completed" && event.type === "function_call"`. -/
def isCompletedFunctionCall : StreamEvent → Bool
  | StreamEvent.function_call EventStatus.completed _ _ => true
  | _ => false

/-- AssistantComponent.onProgressEvent (lines 294-305): set the rendered
progress label, and additionally persist a non-final assistant message for
a completed tool call. -/
def onProgressEvent (render : String → String) (event : StreamEvent)
    (s : ConsumerState) : ConsumerState :=
  let progress := getProgressLabel event
  let s1 := { s with streamProgress := render progress }
  if isCompletedFunctionCall event then
    addMessage render progress MessageAuthor.assistant true false s1
  else s1

/-- JavaScript `s.includes(sep)` for the one-character newline separator:
the character occurs among the characters of the string. -/
def includesChar (s : String) (c : Char) : Bool := s.data.contains c

/-- AssistantComponent.onOutputEvent (lines 321-343): clear the progress
label; when the delta contains a newline, set the output to a full
re-render of the cumulative Markdown, else append the raw delta to the
previous output value. -/
def onOutputEvent (render : String → String) (delta cumulative : String)
    (s : ConsumerState) : ConsumerState :=
  let s1 := { s with streamProgress := "" }
  if includesChar delta '\n' then { s1 with outputValue := render cumulative }
  else { s1 with outputValue := s1.outputValue ++ delta }

/-- One iteration of the loop of AssistantComponent.pipeStream (lines
368-383): non-output events go to onProgressEvent; output events extend the
cumulative text and go to onOutputEvent. The accumulator pairs the state
with the cumulative text. -/
def pipeStep (render : String → String) (acc : ConsumerState × String) :
    StreamEvent → ConsumerState × String
  | StreamEvent.output _ delta =>
      let text := acc.2 ++ delta
      (onOutputEvent render delta text acc.1, text)
  | event => (onProgressEvent render event acc.1, acc.2)

/-- AssistantComponent.pipeStream over the events the stream delivers:
folds pipeStep from the empty cumulative text, giving the final state and
the complete Markdown output text. -/
def pipeStreamRun (render : String → String) (events : List StreamEvent)
    (s : ConsumerState) : ConsumerState × String :=
  events.foldl (pipeStep render) (s, "")

/-- The error message of AssistantComponent.consumeStream lines 412-413. -/
def streamErrorMessage : String :=
  "Sorry, something went wrong. Please refresh and try again later."

/-- AssistantComponent.consumeStream (lines 402-423). `events` are the
events the stream delivered; `raised` tells whether the iteration then
raised instead of ending normally. On normal exhaustion the complete text
is added as a persisted assistant message; on an error the error message is
added instead; the finally block always resets the output signal, the
awaiting flag and the progress label. -/
def consumeStream (render : String → String) (events : List StreamEvent)
    (raised : Bool) (s : ConsumerState) : ConsumerState :=
  let piped := pipeStreamRun render events s
  let s2 :=
    if raised then
      addMessage render streamErrorMessage MessageAuthor.assistant true true piped.1
    else
      addMessage render piped.2 MessageAuthor.assistant true true piped.1
  { s2 with outputValue := "", isAwaiting := false, streamProgress := "" }

/-- The concatenation of the output deltas of an event sequence: the total
output text a chunking delivers. -/
def outputText : List StreamEvent → String
  | [] => ""
  | StreamEvent.output _ delta :: rest => delta ++ outputText rest
  | _ :: rest => outputText rest

/-! ## Persistent Store (storage.service.ts) -/

/-- The durable state: the append-only message log (chat_history) and the
single-slot session id (chat_session; `none` when unset). -/
structure DbState where
  history : List ChatMessage
  session : Option String

/-- The two clear requests StorageService.clearDatabase issues inside its
one readwrite transaction over both object stores. -/
inductive TxOp where
  | clearHistoryStore
  | clearSessionStore

/-- The effect of one clear request on the durable state. -/
def applyTxOp : TxOp → DbState → DbState
  | TxOp.clearHistoryStore, db => { db with history := [] }
  | TxOp.clearSessionStore, db => { db with session := none }

/-- IndexedDB transaction semantics for a batch of requests in one
transaction: if any request fails the transaction aborts and rolls back,
the awaited completion rejects and the durable state is unchanged;
otherwise all effects commit together. `fails` says which requests fail. -/
def runTransaction (fails : TxOp → Bool) (db : DbState) (ops : List TxOp) :
    Except Unit DbState :=
  if ops.any fails then Except.error ()
  else Except.ok (ops.foldl (fun d op => applyTxOp op d) db)

/-- StorageService.clearDatabase (storage.service.ts lines 168-183): one
transaction over both stores, clearing each, awaiting both requests and the
transaction completion together. -/
def clearDatabase (fails : TxOp → Bool) (db : DbState) : Except Unit DbState :=
  runTransaction fails db [TxOp.clearHistoryStore, TxOp.clearSessionStore]

/-- The fully cleared durable state. -/
def emptyDb : DbState := ⟨[], none⟩

/-- StorageService.getChatId on the durable state: the stored id, or the
empty-string sentinel when unset. -/
def getChatId (db : DbState) : String := db.session.getD ""

/-- StorageService.saveChatId on the durable state: overwrite the single
session slot. -/
def saveChatId (id : String) (db : DbState) : DbState :=
  { db with session := some id }

/-- The session persistence step of AssistantComponent.sendRequest (lines
464-466): `if (response.sessionId && sessionId !== response.sessionId)`
save the returned id, where sessionId is the stored id read before the
request and the truthiness test makes the empty string never saved. -/
def sendRequestSaveSession (respSessionId : String) (db : DbState) : DbState :=
  let sessionId := getChatId db
  if respSessionId ≠ "" ∧ sessionId ≠ respSessionId then
    saveChatId respSessionId db
  else db

/-- The welcome message AssistantComponent re-adds after clearing. -/
def welcomeMessage : String :=
  "Welcome to the ROCm Documentation!\n\nHow can I assist you today?"

/-- AssistantComponent.clearChat (lines 236-247): reset the live message
list to the (unsaved) welcome message, make the best-effort clearHistory
request, and clear the local database; the local clearing is unconditional
on the request outcome. Gives the new component state, the clearHistory
result, and the database clearing outcome. -/
def clearChat (render : String → String) (outcome : FetchOutcome)
    (fails : TxOp → Bool) (s : ConsumerState) (db : DbState) :
    ConsumerState × Bool × Except Unit DbState :=
  let s1 := addMessage render welcomeMessage MessageAuthor.assistant false true
    { s with messages := [] }
  let sent := clearHistory outcome
  (s1, sent, clearDatabase fails db)

/-! ## Theorems -/

/-- Helper: filterMap distributes over an element inserted in the middle of
the input, the inserted element contributing the zero-or-one results of the
mapping function. -/
theorem filterMap_middle {α β : Type} (f : α → Option β) (pre post : List α)
    (a : α) :
    List.filterMap f (pre ++ a :: post)
      = List.filterMap f pre ++ (f a).toList ++ List.filterMap f post := by
  cases h : f a <;>
    simp [List.filterMap_append, List.filterMap_cons, h, List.append_assoc]

/-- Helper: a value can pass the strict string comparison against two
strings only when they are the same string. -/
theorem isStr_injective {v : Option Json} {a b : String}
    (ha : isStr v a = true) (hb : isStr v b = true) : a = b := by
  unfold isStr at ha hb
  cases v with
  | none => simp at ha
  | some j => cases j <;> simp_all

/-- Helper: the Event Validator accepts an object exactly when the spec-side
acceptance predicate does. -/
theorem toStreamEvent_isSome_eq (o : JsObject) :
    (toStreamEvent o).isSome = specAcceptsEvent o := by
  unfold toStreamEvent specAcceptsEvent decodeStatus isEventStatus
  by_cases hip : isStr (jsGet o "status") "in_progress" <;>
    by_cases hc : isStr (jsGet o "status") "completed" <;>
      simp only [hip, hc, if_true, if_false, Bool.true_or, Bool.or_true,
        Bool.false_or, Bool.or_false, Bool.true_and, Bool.false_and,
        Option.isSome_none, Option.isSome_some] <;>
    by_cases hr : isStr (jsGet o "type") "reasoning" <;>
      by_cases hf : isStr (jsGet o "type") "function_call" <;>
        by_cases ho : isStr (jsGet o "type") "output" <;>
          simp only [hr, hf, ho, if_true, if_false, Bool.true_or,
            Bool.or_true, Bool.false_or, Bool.or_false, Bool.true_and,
            Bool.false_and, Bool.and_true, Bool.and_false,
            Option.isSome_none, Option.isSome_some] <;>
          first
          | rfl
          | exact absurd (isStr_injective hf ho) (by decide)
          | (cases hn : jsGet o "name" with
             | none => simp [hn, isStringVal]
             | some j => cases j <;> simp [hn, isStringVal])
          | (cases hd : jsGet o "delta" with
             | none => simp [hd, isStringVal]
             | some j => cases j <;> simp [hd, isStringVal])

/-- Claim C1 (amended): an object fed to the Event Validator yields exactly
one StreamEvent when its type and status are recognized and the variant
fields are well-typed (string name for function_call, string delta for
output), and nothing otherwise; a rejected object contributes no output and
leaves the handling of the surrounding objects unchanged; and for a decoded
function_call the `arguments` value is attached exactly when it passes the
isRecord test — a non-null value of JavaScript object type, which includes
arrays as well as plain records — and is otherwise omitted without causing
rejection. -/
theorem eventValidator_characterization (pre post : List JsObject) (o : JsObject) :
    eventDecoderProcess (pre ++ o :: post)
      = eventDecoderProcess pre ++ (toStreamEvent o).toList ++ eventDecoderProcess post
    ∧ (toStreamEvent o).isSome = specAcceptsEvent o
    ∧ (∀ st n a, toStreamEvent o = some (StreamEvent.function_call st n a) →
        a = if isRecord (jsGet o "arguments") then jsGet o "arguments" else none) := by
  refine ⟨filterMap_middle toStreamEvent pre post o, toStreamEvent_isSome_eq o, ?_⟩
  intro st n a h
  unfold toStreamEvent at h
  split at h
  · exact absurd h (by simp)
  · split at h
    · simp at h
    · split at h
      · split at h
        · simp only [Option.some.injEq, StreamEvent.function_call.injEq] at h
          exact h.2.2.symm
        · simp at h
      · split at h
        · split at h
          · simp at h
          · simp at h
        · simp at h

/-- A well-formed function_call object with a plain-record `arguments`
value, as in the repository test suite. -/
def exampleFunctionCallObject : JsObject :=
  [("type", Json.str "function_call"), ("status", Json.str "in_progress"),
   ("name", Json.str "search"), ("arguments", Json.obj [("q", Json.str "rocm")])]

/-- A function_call object whose `arguments` value is an array: not a plain
record, yet accepted by the isRecord test of the validator. -/
def arrayArgumentsObject : JsObject :=
  [("type", Json.str "function_call"), ("status", Json.str "in_progress"),
   ("name", Json.str "f"), ("arguments", Json.arr [])]

/-- Claim C1 counterexample: on an object whose `arguments` is an array —
not a plain record — the validator attaches the array instead of omitting
it, because its isRecord test accepts any non-null value of JavaScript
object type. -/
theorem toStreamEvent_array_arguments_counterexample :
    toStreamEvent arrayArgumentsObject
      = some (StreamEvent.function_call EventStatus.in_progress "f"
          (some (Json.arr [])))
    ∧ isPlainRecord (Json.arr []) = false :=
  ⟨rfl, rfl⟩

/-- Claim C1 witness: the characterization evaluated on the well-formed
example object — it is accepted and its plain-record arguments are
attached. -/
theorem eventValidator_characterization_witness :
    (some (Json.obj [("q", Json.str "rocm")]) : Option Json)
      = (if isRecord (jsGet exampleFunctionCallObject "arguments")
         then jsGet exampleFunctionCallObject "arguments" else none) := by
  have h := (eventValidator_characterization [] [] exampleFunctionCallObject).2.2
  exact h EventStatus.in_progress "search"
    (some (Json.obj [("q", Json.str "rocm")])) rfl

/-- Helper: feeding chunks one by one is feeding their concatenation at
once — character feeding only depends on the character sequence. -/
theorem feedChunks_eq_feed_flatten (chunks : List (List Char)) :
    ∀ st : SegState, feedChunks st chunks = feedChunk st chunks.flatten := by
  induction chunks with
  | nil => intro st; rfl
  | cons c rest ih =>
    intro st
    show feedChunks (feedChunk st c) rest = feedChunk st ((c :: rest).flatten)
    rw [ih]
    simp [feedChunk, List.flatten_cons, List.foldl_append]

/-- Claim C5: decoding a byte sequence as one chunk and decoding it split
into arbitrary chunks yield identical ordered sequences of parsed values
(stated for every chunking and every parser element report, hence in
particular for valid newline-delimited JSON). -/
theorem delimitedJSONDecode_chunking_invariant
    (elementsOf : List Char → List ParsedElementInfo)
    (chunks : List (List Char)) :
    delimitedJSONDecode elementsOf chunks
      = delimitedJSONDecode elementsOf [chunks.flatten] := by
  have hsingle : feedChunks initialSegState [chunks.flatten]
      = feedChunk initialSegState chunks.flatten := rfl
  unfold delimitedJSONDecode completedSegments
  rw [feedChunks_eq_feed_flatten, hsingle]

/-- Claim C7: the Byte-to-Value Decoder forwards a parsed element exactly
when it is a root-level value (no parent in the parse tree) and an object
that is neither null nor an array; everything else is dropped silently,
contributing no output element, and the forwarded values keep their
arrival order. -/
theorem completedJSONFilter_root_objects_only
    (pre post : List ParsedElementInfo) (i : ParsedElementInfo) :
    completedJSONFilter (pre ++ i :: post)
      = completedJSONFilter pre ++ (rootObjectOf i).toList ++ completedJSONFilter post
    ∧ (∀ fields, rootObjectOf i = some fields ↔
        (i.parent = none ∧ i.value = Json.obj fields)) := by
  refine ⟨filterMap_middle rootObjectOf pre post i, ?_⟩
  intro fields
  unfold rootObjectOf
  cases hp : i.parent with
  | some p => simp
  | none =>
    cases hv : i.value <;>
      simp [jsTruthy, jsTypeofIsObject, jsIsArray]

/-- Helper: the cumulative text accumulated by the pipeStream fold is the
initial text followed by the concatenation of the output deltas. -/
theorem foldl_pipeStep_text (render : String → String)
    (events : List StreamEvent) :
    ∀ (s : ConsumerState) (t : String),
      (events.foldl (pipeStep render) (s, t)).2 = t ++ outputText events := by
  induction events with
  | nil => intro s t; simp [outputText]
  | cons e rest ih =>
    intro s t
    cases e with
    | reasoning st => simpa [pipeStep, outputText] using ih _ t
    | function_call st n a => simpa [pipeStep, outputText] using ih _ t
    | output st d =>
      simp [pipeStep, outputText, ih, String.append_assoc]

/-- Helper: consumeStream always appends exactly one persisted assistant
final message — the rendered full text on normal exhaustion, the rendered
error message on a raised error. -/
theorem consumeStream_persisted_eq (render : String → String)
    (events : List StreamEvent) (raised : Bool) (s : ConsumerState) :
    (consumeStream render events raised s).persisted
      = (pipeStreamRun render events s).1.persisted
        ++ [⟨MessageAuthor.assistant,
             render (if raised then streamErrorMessage else outputText events),
             true⟩] := by
  unfold consumeStream addMessage pipeStreamRun
  cases raised with
  | true => simp
  | false => simp [foldl_pipeStep_text]

/-- Claim C6: whether the event sequence ends normally or raises mid-way,
the Consumer finishes by appending exactly one persisted assistant message
(the full render of the cumulative buffer, or the error message with the
partial text discarded), clearing the awaiting flag, clearing the progress
label and resetting the live streaming output to empty. -/
theorem consumeStream_terminal_behavior (render : String → String)
    (events : List StreamEvent) (raised : Bool) (s : ConsumerState) :
    (consumeStream render events raised s).persisted
      = (pipeStreamRun render events s).1.persisted
        ++ [⟨MessageAuthor.assistant,
             render (if raised then streamErrorMessage else outputText events),
             true⟩]
    ∧ (consumeStream render events raised s).isAwaiting = false
    ∧ (consumeStream render events raised s).streamProgress = ""
    ∧ (consumeStream render events raised s).outputValue = "" :=
  ⟨consumeStream_persisted_eq render events raised s, rfl, rfl, rfl⟩

/-- Claim C3: an output delta containing a newline sets the displayed output
to a full re-render of the cumulative buffer; a delta without a newline is
appended verbatim to the previously rendered output; and any two chunkings
delivering the same total output text end the stream with the same final
rendered text (the content of the final persisted assistant message). -/
theorem outputRenderer_paths_and_chunking_invariance (render : String → String) :
    (∀ delta cumulative s, includesChar delta '\n' = true →
        (onOutputEvent render delta cumulative s).outputValue = render cumulative)
    ∧ (∀ delta cumulative s, includesChar delta '\n' = false →
        (onOutputEvent render delta cumulative s).outputValue
          = s.outputValue ++ delta)
    ∧ (∀ events1 events2 s1 s2, outputText events1 = outputText events2 →
        ((consumeStream render events1 false s1).persisted.getLast?).map
            (fun m => m.content)
          = ((consumeStream render events2 false s2).persisted.getLast?).map
            (fun m => m.content)) := by
  refine ⟨?_, ?_, ?_⟩
  · intro delta cumulative s h
    simp [onOutputEvent, h]
  · intro delta cumulative s h
    simp [onOutputEvent, h]
  · intro events1 events2 s1 s2 h
    rw [consumeStream_persisted_eq, consumeStream_persisted_eq]
    simp [List.getLast?_concat, h]

/-- The arguments payload of the fetch_page_content tool call of the
example stream. -/
def exampleURLArguments : Json := Json.obj [("urls", Json.arr [Json.str "http://a"])]

/-- The example event sequence of the spec: reasoning, a fetch_page_content
tool call in progress and completed, then the output deltas of the text
Hi followed by the exclamation mark. -/
def exampleEventSequence : List StreamEvent :=
  [StreamEvent.reasoning EventStatus.in_progress,
   StreamEvent.function_call EventStatus.in_progress "fetch_page_content"
     (some exampleURLArguments),
   StreamEvent.function_call EventStatus.completed "fetch_page_content"
     (some exampleURLArguments),
   StreamEvent.output EventStatus.in_progress "Hi",
   StreamEvent.output EventStatus.completed "!"]

/-- Claim C2: consuming the example stream persists exactly two messages:
one non-final assistant message rendering the fetch-page-content label with
the URL list, and one final assistant message rendering the full text
produced by the output deltas. -/
theorem consumer_example_persists_exactly_two (render : String → String)
    (s : ConsumerState) :
    (consumeStream render exampleEventSequence false s).persisted
      = s.persisted
        ++ [⟨MessageAuthor.assistant,
             render (progressLabelFetch ++ "\n" ++ "- http://a"), false⟩,
            ⟨MessageAuthor.assistant, render "Hi!", true⟩] := by
  have hfmt : formatURLsList (some exampleURLArguments) = "- http://a" := rfl
  have hq1 : (("fetch_page_content" : String) == "retrieve_web_links") = false := rfl
  have hq2 : (("fetch_page_content" : String) == "fetch_page_content") = true := rfl
  have h1 : includesChar "Hi" '\n' = false := rfl
  have h2 : includesChar "!" '\n' = false := rfl
  have h3 : ((("" : String) ++ "Hi") ++ "!") = "Hi!" := rfl
  simp [consumeStream, pipeStreamRun, exampleEventSequence, pipeStep,
        onProgressEvent, onOutputEvent, addMessage, getProgressLabel,
        isCompletedFunctionCall, hfmt, hq1, hq2, h1, h2, h3]


/-- Claim C4: generateResponse fails exactly when the HTTP response cannot
be used — status 429 gives the rate-limit error whose message carries the
retry value whenever the RateLimit-Reset header supplies a non-empty one;
any other non-2xx status or a missing body gives the connectivity error; a
rejected fetch gives the timeout error when the abort signal fired and the
generic failure otherwise; and on success it returns the Session-ID
response header (defaulted to the empty string) together with the
validated event stream decoded from the body. -/
theorem generateResponse_error_taxonomy
    (elementsOf : List Char → List ParsedElementInfo)
    (r : HttpResponse) (aborted : Bool) :
    (r.status = 429 →
      generateResponse elementsOf (FetchOutcome.success r)
          = Except.error ⟨rateLimitMessage r.rateLimitResetHeader, some r.status⟩
        ∧ ∀ v, r.rateLimitResetHeader = some v → v ≠ "" →
            ∃ a b, rateLimitMessage r.rateLimitResetHeader = a ++ v ++ b)
    ∧ (r.status ≠ 429 → (r.ok = false ∨ r.hasBody = false) →
        generateResponse elementsOf (FetchOutcome.success r)
          = Except.error ⟨unreachableMessage, some r.status⟩)
    ∧ (r.ok = true → r.hasBody = true →
        generateResponse elementsOf (FetchOutcome.success r)
          = Except.ok ⟨jsOrEmpty r.sessionIdHeader,
              eventDecoderProcess (delimitedJSONDecode elementsOf r.bodyChunks)⟩)
    ∧ generateResponse elementsOf (FetchOutcome.failure aborted)
        = Except.error ⟨if aborted then timeoutMessage else requestFailedMessage, none⟩
    ∧ ((∃ x, generateResponse elementsOf (FetchOutcome.success r) = Except.ok x)
        ↔ (r.ok = true ∧ r.hasBody = true)) := by
  have hok429 : r.status = 429 → r.ok = false := by
    intro h
    unfold HttpResponse.ok
    simp [h]
  refine ⟨?_, ?_, ?_, ?_, ?_⟩
  · intro h429
    refine ⟨by simp [generateResponse, h429], ?_⟩
    intro v hv hne
    refine ⟨"Sorry, you\x27ve sent too many requests too quickly. Please wait ",
      "s to try again.", ?_⟩
    rw [rateLimitMessage.eq_def, hv]
    simp [hne, String.append_assoc]
  · intro h429 hbad
    cases hbad with
    | inl hok => simp [generateResponse, h429, hok]
    | inr hbody => simp [generateResponse, h429, hbody]
  · intro hok hbody
    have h429 : r.status ≠ 429 := by
      intro h
      rw [hok429 h] at hok
      exact Bool.false_ne_true hok
    simp [generateResponse, h429, hok, hbody]
  · cases aborted <;> simp [generateResponse]
  · constructor
    · rintro ⟨x, hx⟩
      by_cases h429 : r.status = 429
      · simp [generateResponse, h429] at hx
      · by_cases hok : r.ok <;> by_cases hbody : r.hasBody <;>
          simp_all [generateResponse, h429]
    · rintro ⟨hok, hbody⟩
      have h429 : r.status ≠ 429 := by
        intro h
        rw [hok429 h] at hok
        exact Bool.false_ne_true hok
      exact ⟨⟨jsOrEmpty r.sessionIdHeader,
          eventDecoderProcess (delimitedJSONDecode elementsOf r.bodyChunks)⟩,
        by simp [generateResponse, h429, hok, hbody]⟩

/-- A concrete 429 response carrying a RateLimit-Reset value. -/
def exampleRateLimited : HttpResponse :=
  ⟨429, true, [], none, some "30"⟩

/-- Claim C4 witness: the taxonomy evaluated on a concrete 429 response —
the call fails with the rate-limit error and the message carries the
30-second retry value. -/
theorem generateResponse_error_taxonomy_witness :
    generateResponse (fun _ => []) (FetchOutcome.success exampleRateLimited)
        = Except.error ⟨rateLimitMessage (some "30"), some 429⟩
    ∧ ∃ a b, rateLimitMessage (some "30") = a ++ "30" ++ b := by
  have h := (generateResponse_error_taxonomy (fun _ => [])
    exampleRateLimited false).1 rfl
  exact ⟨h.1, h.2 "30" rfl (by decide)⟩

/-- Helper: clearDatabase either fails — when either clear request fails,
aborting the transaction with both stores rolled back — or commits both
clears, leaving the empty state. -/
theorem clearDatabase_cases (fails : TxOp → Bool) (db : DbState) :
    clearDatabase fails db
      = if fails TxOp.clearHistoryStore || fails TxOp.clearSessionStore
        then Except.error () else Except.ok emptyDb := by
  unfold clearDatabase runTransaction
  simp only [List.any_cons, List.any_nil, Bool.or_false]
  rfl

/-- Claim C8: clearDatabase succeeds exactly when both halves of its single
transaction succeed, a success leaves both the message log and the session
slot empty, and the operation is idempotent — a second successful call
leaves the same empty state as the first. -/
theorem clearDatabase_atomic_and_idempotent (f1 f2 : TxOp → Bool) (db : DbState) :
    ((∃ d, clearDatabase f1 db = Except.ok d)
        ↔ (f1 TxOp.clearHistoryStore = false ∧ f1 TxOp.clearSessionStore = false))
    ∧ (∀ d, clearDatabase f1 db = Except.ok d → d = emptyDb)
    ∧ (∀ d1 d2, clearDatabase f1 db = Except.ok d1 →
        clearDatabase f2 d1 = Except.ok d2 → d2 = d1) := by
  by_cases h1 : f1 TxOp.clearHistoryStore <;>
    by_cases h2 : f1 TxOp.clearSessionStore <;>
      by_cases g1 : f2 TxOp.clearHistoryStore <;>
        by_cases g2 : f2 TxOp.clearSessionStore <;>
          simp [clearDatabase_cases, h1, h2, g1, g2]

/-- An example populated durable state. -/
def exampleDb : DbState :=
  ⟨[⟨MessageAuthor.user, "hello", true⟩], some "session-1"⟩

/-- Claim C8 witness: with no request failing, clearing a populated store
succeeds and empties it, and clearing again gives the same empty state. -/
theorem clearDatabase_atomic_and_idempotent_witness :
    clearDatabase (fun _ => false) exampleDb = Except.ok emptyDb
    ∧ clearDatabase (fun _ => false) emptyDb = Except.ok emptyDb := by
  have h := clearDatabase_atomic_and_idempotent
    (fun _ => false) (fun _ => false) exampleDb
  have h1 : clearDatabase (fun _ => false) exampleDb = Except.ok emptyDb := rfl
  have h2 : clearDatabase (fun _ => false) emptyDb = Except.ok emptyDb := rfl
  exact ⟨h1, by rw [h.2.2 emptyDb emptyDb h1 h2]; exact h2⟩

/-- Claim C9: clearHistory is a total boolean function — it returns true
exactly when the underlying fetch resolved and false on any rejection,
including a timeout-driven abort, never throwing — and the local state
clearing performed by clearChat (the reset message list and the database
clear) is identical whatever the clearHistory outcome was. -/
theorem clearHistory_total_and_local_clear_independent :
    (∀ outcome, clearHistory outcome = true ↔ ∃ r, outcome = FetchOutcome.success r)
    ∧ (∀ (render : String → String) (o1 o2 : FetchOutcome) (fails : TxOp → Bool)
        (s : ConsumerState) (db : DbState),
        (clearChat render o1 fails s db).1 = (clearChat render o2 fails s db).1
        ∧ (clearChat render o1 fails s db).2.2 = (clearChat render o2 fails s db).2.2) := by
  constructor
  · intro outcome
    cases outcome with
    | success r => simp [clearHistory]
    | failure a => simp [clearHistory]
  · intro render o1 o2 fails s db
    exact ⟨rfl, rfl⟩

/-- Claim C10: sendRequest persists the returned session identifier only
when it is non-empty and different from the identifier that was sent (the
stored one); an empty returned identifier — for example when the response
header is absent, in which case the transport returns the empty string —
leaves the stored identifier unchanged, and the stored identifier can
never become the empty string by this step. -/
theorem sendRequest_session_persistence (respSessionId : String) (db : DbState) :
    (respSessionId = "" → sendRequestSaveSession respSessionId db = db)
    ∧ (getChatId db = respSessionId → sendRequestSaveSession respSessionId db = db)
    ∧ (respSessionId ≠ "" → getChatId db ≠ respSessionId →
        (sendRequestSaveSession respSessionId db).session = some respSessionId)
    ∧ ((sendRequestSaveSession respSessionId db).session = some "" →
        db.session = some "")
    ∧ jsOrEmpty none = "" := by
  unfold sendRequestSaveSession saveChatId
  by_cases h1 : respSessionId = "" <;> by_cases h2 : getChatId db = respSessionId <;>
    simp [h1, h2, jsOrEmpty]

/-- Claim C10 witness: a non-empty returned identifier differing from the
stored one is saved; evaluated at a concrete store. -/
theorem sendRequest_session_persistence_witness :
    (sendRequestSaveSession "session-2" exampleDb).session = some "session-2" := by
  have h := (sendRequest_session_persistence "session-2" exampleDb).2.2.1
  exact h (by decide) (by decide)
